import Mathlib

/-!
Verification of the resilience core of the pH-monitor repository.

Each Python module relevant to the frozen claims is shallowly embedded as
executable Lean definitions over exact rational arithmetic (Python floats
are modelled as rationals; every comparison settled here is far from any
rounding boundary).  Wall-clock time (time.monotonic) is threaded through
as an explicit `now` argument.  Console printing and telemetry counters
that do not influence the values a claim talks about are elided; where a
function also mutates a collaborator object (state manager, wifi manager)
that collaborator is modelled by its own embedding.
-/

namespace PHMonitor

/-- Lookup in a Python dict modelled as an insertion-ordered association
list: the value of the first (unique) pair with the given key. -/
def dictGet {K V : Type} [DecidableEq K] (l : List (K × V)) (k : K) : Option V :=
  (l.find? (fun p => decide (p.1 = k))).map Prod.snd

/-- Python dict assignment: replace the value of an existing key in place,
otherwise append the new binding at the end. -/
def dictSet {K V : Type} [DecidableEq K] : List (K × V) → K → V → List (K × V)
  | [], k, v => [(k, v)]
  | p :: rest, k, v => if p.1 = k then (k, v) :: rest else p :: dictSet rest k v

/-! ## lib/core/lean_state.py -/

namespace LeanState

/-- class SystemState: STARTING = 0, HEALTHY = 1, DEGRADED = 2, CRITICAL = 3. -/
inductive SystemState
  | starting
  | healthy
  | degraded
  | critical
deriving DecidableEq, Repr

/-- A Python value stored as a sensor reading: either a number
(isinstance(value, (int, float)) holds) or anything else. -/
inductive PyValue
  | num (q : ℚ)
  | nonNumeric
deriving DecidableEq, Repr

/-- an alert dict: msg, sev, time (message text abstracted: the f-string
formatting of the numeric value into the message is elided). -/
structure Alert where
  msg : String
  sev : String
  time : ℚ
deriving DecidableEq, Repr

/-- one entry of StateManager.readings: value plus timestamp. -/
structure Reading where
  value : PyValue
  time : ℚ
deriving DecidableEq, Repr

/-- StateManager fields (watchdog elided: not used by any claim).
components maps name to health level 0 = healthy, 1 = degraded, 2 = failed. -/
structure StateManager where
  state : SystemState
  components : List (String × Nat)
  alerts : List Alert
  readings : List (String × Reading)
deriving DecidableEq, Repr

/-- self.temp_critical = 107.0 (set in __init__, never mutated). -/
def temp_critical : ℚ := 107

/-- self.temp_warning = 105.0. -/
def temp_warning : ℚ := 105

/-- StateManager.__init__: STARTING state, empty tables. -/
def newManager : StateManager := ⟨.starting, [], [], []⟩

/-- StateManager.register_component: start as unknown/failed (2). -/
def register_component (m : StateManager) (name : String) : StateManager :=
  { m with components := dictSet m.components name 2 }

/-- StateManager.add_alert: append, then keep only the last 5 alerts. -/
def add_alert (m : StateManager) (message severity : String) (now : ℚ) : StateManager :=
  let alerts := m.alerts ++ [⟨message, severity, now⟩]
  { m with alerts := if 5 < alerts.length then alerts.drop 1 else alerts }

/-- health_map = "healthy" 0, "degraded" 1, "failed" 2, with default 2
for any other string (dict .get default). -/
def health_map (health : String) : Nat :=
  if health = "healthy" then 0 else if health = "degraded" then 1 else 2

/-- number of components whose health level is 2 (failed). -/
def failedCount (components : List (String × Nat)) : Nat :=
  components.countP (fun p => decide (p.2 = 2))

/-- number of components whose health level is 1 (degraded). -/
def degradedCount (components : List (String × Nat)) : Nat :=
  components.countP (fun p => decide (p.2 = 1))

/-- StateManager._update_system_state: recompute the overall state from
the component table alone. -/
def update_system_state_value (components : List (String × Nat)) : SystemState :=
  if dictGet components "temperature" = some 2 then .critical
  else if 2 ≤ failedCount components then .critical
  else if 1 ≤ failedCount components ∨ 2 ≤ degradedCount components then .degraded
  else .healthy

/-- StateManager.update_component_health. -/
def update_component_health (m : StateManager) (name health : String)
    (error : Option String) (now : ℚ) : StateManager :=
  let newHealth := health_map health
  let oldHealth := (dictGet m.components name).getD 2
  let m1 := { m with components := dictSet m.components name newHealth }
  let m2 := match error with
    | some e => if health ≠ "healthy" then add_alert m1 (name ++ ": " ++ e) "warning" now else m1
    | none => m1
  if oldHealth ≠ newHealth then
    { m2 with state := update_system_state_value m2.components }
  else m2

/-- StateManager.update_reading: store the reading, then the temperature
safety check (critical sets state to CRITICAL, warning only alerts). -/
def update_reading (m : StateManager) (sensor : String) (value : PyValue) (ts : ℚ) :
    StateManager :=
  let m1 := { m with readings := dictSet m.readings sensor ⟨value, ts⟩ }
  match value with
  | .num v =>
    if sensor = "temperature" then
      if temp_critical ≤ v then
        let m2 := add_alert m1 "CRITICAL temperature" "critical" ts
        { m2 with state := .critical }
      else if temp_warning ≤ v then
        add_alert m1 "WARNING temperature high" "warning" ts
      else m1
    else m1
  | .nonNumeric => m1

/-- StateManager.get_reading: None once older than max_age. -/
def get_reading (m : StateManager) (sensor : String) (max_age now : ℚ) : Option PyValue :=
  match dictGet m.readings sensor with
  | none => none
  | some r => if now - r.time ≤ max_age then some r.value else none

/-- StateManager.should_continue: true unless state is CRITICAL. -/
def should_continue (m : StateManager) : Bool :=
  decide (m.state ≠ .critical)

/-- The recompute rule as the spec states it, for the refinement claim C3:
count Failed and Degraded; at least 2 Failed gives Critical; at least 1
Failed or at least 2 Degraded gives Degraded; else Healthy; and the hard
override: primary safety sensor (temperature) Failed always gives Critical. -/
def spec_system_state (components : List (String × Nat)) : SystemState :=
  let failed := failedCount components
  let degraded := degradedCount components
  if dictGet components "temperature" = some 2 then .critical
  else if 2 ≤ failed then .critical
  else if 1 ≤ failed ∨ 2 ≤ degraded then .degraded
  else .healthy

/-- helper: with unique keys, dict lookup finds exactly the pairs of the list. -/
theorem dictGet_eq_some_iff {K V : Type} [DecidableEq K] {l : List (K × V)}
    (h : (l.map Prod.fst).Nodup) {k : K} {v : V} :
    dictGet l k = some v ↔ (k, v) ∈ l := by
  induction l with
  | nil => simp [dictGet]
  | cons a t ih =>
    obtain ⟨a1, a2⟩ := a
    simp only [List.map_cons, List.nodup_cons] at h
    by_cases hk : a1 = k
    · subst hk
      have hfind : dictGet ((a1, a2) :: t) a1 = some a2 := by
        simp [dictGet, List.find?_cons]
      rw [hfind]
      simp only [Option.some.injEq, List.mem_cons, Prod.mk.injEq, true_and]
      constructor
      · intro hv
        exact Or.inl hv.symm
      · rintro (rfl | hmem)
        · rfl
        · exact absurd (by simpa using List.mem_map_of_mem Prod.fst hmem) h.1
    · have hfind : dictGet ((a1, a2) :: t) k = dictGet t k := by
        simp [dictGet, List.find?_cons, hk]
      rw [hfind, ih h.2]
      simp only [List.mem_cons, Prod.mk.injEq]
      constructor
      · intro hmem
        exact Or.inr hmem
      · rintro (⟨h1, h2⟩ | hmem)
        · exact absurd h1.symm hk
        · exact hmem

/-- helper: with unique keys, dict lookup is invariant under permutation. -/
theorem dictGet_perm {K V : Type} [DecidableEq K] {l l' : List (K × V)}
    (h : (l.map Prod.fst).Nodup) (hp : l.Perm l') (k : K) :
    dictGet l k = dictGet l' k := by
  have h' : (l'.map Prod.fst).Nodup := ((hp.map Prod.fst).nodup_iff).mp h
  cases hl : dictGet l' k with
  | some v =>
    rw [dictGet_eq_some_iff h'] at hl
    rw [dictGet_eq_some_iff h]
    exact hp.mem_iff.mpr hl
  | none =>
    cases hl2 : dictGet l k with
    | none => rfl
    | some v =>
      rw [dictGet_eq_some_iff h] at hl2
      have hmem : (k, v) ∈ l' := hp.mem_iff.mp hl2
      rw [← dictGet_eq_some_iff h'] at hmem
      rw [hmem] at hl
      cases hl

/-- C1 counterexample scenario, step by step: register two components,
report both healthy, then report temperature 108 (above the 107 critical
threshold), then report the wifi component degraded. -/
def c1_m4 : StateManager :=
  update_reading
    (update_component_health
      (update_component_health
        (register_component (register_component newManager "temperature") "wifi")
        "temperature" "healthy" none 0)
      "wifi" "healthy" none 0)
    "temperature" (.num 108) 1

/-- C1 counterexample scenario, final step: a component-health report
arriving while the temperature breach stands. -/
def c1_m5 : StateManager :=
  update_component_health c1_m4 "wifi" "degraded" none 2

/-- C1 (counterexample): reporting temperature 108 does force CRITICAL and
should_continue false, but a subsequent component-health report (wifi
degraded) recomputes SystemState from component counts alone and moves it
back to HEALTHY with should_continue true, even though the stored
temperature reading 108 (at or above the 107 threshold) still stands.
This refutes the part of the claim saying no subsequent component-health
report may move SystemState away from Critical while the breach stands. -/
theorem C1_counterexample :
    c1_m4.state = .critical ∧ should_continue c1_m4 = false ∧
    get_reading c1_m5 "temperature" 60 2 = some (.num 108) ∧
    c1_m5.state = .healthy ∧ should_continue c1_m5 = true := by
  with_unfolding_all decide

/-- C1 (amended): reporting the temperature metric at or above the 107.0
critical threshold via update_reading forces SystemState to CRITICAL and
should_continue() returns false on the next check; however the override is
not latched: a later component-health report that changes a component's
health recomputes SystemState from the component-health counts alone and
can move it away from CRITICAL while the breach stands (see the
counterexample). -/
theorem C1_critical_temp_forces_halt (m : StateManager) (v ts : ℚ)
    (h : temp_critical ≤ v) :
    (update_reading m "temperature" (.num v) ts).state = .critical ∧
    should_continue (update_reading m "temperature" (.num v) ts) = false := by
  unfold update_reading should_continue
  simp [h]

/-- C1 witness: the amended theorem instantiated at temperature 108. -/
theorem C1_witness :
    temp_critical ≤ (108 : ℚ) ∧
    ((update_reading newManager "temperature" (.num 108) 0).state = .critical ∧
     should_continue (update_reading newManager "temperature" (.num 108) 0) = false) :=
  ⟨by decide, C1_critical_temp_forces_halt newManager 108 0 (by decide)⟩

/-- C3: the system-state recompute agrees with the rule as the spec words
it, is invariant under permutation of the component table (a function of
the multiset, keys being unique in a dict), and satisfies the stated
case analysis: temperature Failed or at least 2 Failed gives Critical;
otherwise at least 1 Failed or at least 2 Degraded gives Degraded;
otherwise Healthy. -/
theorem C3_system_state_recompute (l l' : List (String × Nat))
    (hl : (l.map Prod.fst).Nodup) (hp : l.Perm l') :
    update_system_state_value l = spec_system_state l ∧
    update_system_state_value l = update_system_state_value l' ∧
    (update_system_state_value l = .critical ↔
      dictGet l "temperature" = some 2 ∨ 2 ≤ failedCount l) ∧
    (update_system_state_value l = .degraded ↔
      ¬ (dictGet l "temperature" = some 2 ∨ 2 ≤ failedCount l) ∧
        (1 ≤ failedCount l ∨ 2 ≤ degradedCount l)) ∧
    (update_system_state_value l = .healthy ↔
      ¬ (dictGet l "temperature" = some 2 ∨ 2 ≤ failedCount l) ∧
        ¬ (1 ≤ failedCount l ∨ 2 ≤ degradedCount l)) := by
  refine ⟨rfl, ?_, ?_, ?_, ?_⟩
  · unfold update_system_state_value failedCount degradedCount
    rw [dictGet_perm hl hp, hp.countP_eq, hp.countP_eq]
  · unfold update_system_state_value
    split_ifs <;> simp_all
  · unfold update_system_state_value
    split_ifs <;> simp_all
  · unfold update_system_state_value
    split_ifs <;> simp_all

/-- C3 witness component table: both core components failed. -/
def c3_table : List (String × Nat) := [("wifi", 2), ("temperature", 2)]

/-- C3 witness component table, permuted. -/
def c3_table2 : List (String × Nat) := [("temperature", 2), ("wifi", 2)]

/-- C3 witness: the theorem instantiated at a concrete two-component table
and a permutation of it. -/
theorem C3_witness :
    ((c3_table.map Prod.fst).Nodup) ∧ (c3_table.Perm c3_table2) ∧
    (update_system_state_value c3_table = spec_system_state c3_table ∧
     update_system_state_value c3_table = update_system_state_value c3_table2 ∧
     (update_system_state_value c3_table = .critical ↔
       dictGet c3_table "temperature" = some 2 ∨ 2 ≤ failedCount c3_table) ∧
     (update_system_state_value c3_table = .degraded ↔
       ¬ (dictGet c3_table "temperature" = some 2 ∨ 2 ≤ failedCount c3_table) ∧
         (1 ≤ failedCount c3_table ∨ 2 ≤ degradedCount c3_table)) ∧
     (update_system_state_value c3_table = .healthy ↔
       ¬ (dictGet c3_table "temperature" = some 2 ∨ 2 ≤ failedCount c3_table) ∧
         ¬ (1 ≤ failedCount c3_table ∨ 2 ≤ degradedCount c3_table))) :=
  ⟨by decide, by decide,
    C3_system_state_recompute c3_table c3_table2 (by decide) (by decide)⟩

end LeanState

/-! ## lib/sensors/robust_measurement.py -/

namespace RobustMeasurement

/-- a Python float value: finite, NaN or infinite (sign of the infinity
is irrelevant to the code, which only calls math.isinf). -/
inductive PyFloat
  | fin (q : ℚ)
  | nan
  | inf
deriving DecidableEq, Repr

/-- a Python value returned by the sensor accessor: a number, a tuple
(of which the code only ever reads element 0), or any other type. -/
inductive PyVal
  | float (f : PyFloat)
  | tuple (first : PyVal)
  | other
deriving DecidableEq, Repr

/-- one accessor invocation: a returned value or a raised exception. -/
inductive SampleOutcome
  | ok (v : PyVal)
  | exn (msg : String)

/-- the body of one iteration of RobustMeasurementBase._collect_samples,
acting on the accumulator (samples, errors, accessor-invocation count).
The error strings are abstracted; timing and sleeps do not affect the
collected data and are elided. -/
def collect_step (acc : List ℚ × List String × Nat) (outcome : SampleOutcome) :
    List ℚ × List String × Nat :=
  match outcome with
  | .exn msg => (acc.1, acc.2.1 ++ [msg], acc.2.2 + 1)
  | .ok v =>
    match v with
    | .tuple first =>
      match first with
      | .float (.fin q) => (acc.1 ++ [q], acc.2.1, acc.2.2 + 1)
      | _ => (acc.1, acc.2.1 ++ ["Invalid value"], acc.2.2 + 1)
    | .float (.fin q) => (acc.1 ++ [q], acc.2.1, acc.2.2 + 1)
    | .float _ => (acc.1, acc.2.1 ++ ["Invalid value"], acc.2.2 + 1)
    | .other => (acc.1, acc.2.1, acc.2.2 + 1)

/-- RobustMeasurementBase._collect_samples: invoke the accessor once per
iteration of range(sample_count); the accessor behavior is a function of
the iteration index. -/
def collect_samples (sample_count : Nat) (sensor_function : Nat → SampleOutcome) :
    List ℚ × List String × Nat :=
  (List.range sample_count).foldl (fun acc i => collect_step acc (sensor_function i))
    ([], [], 0)

/-- ascending stable insertion of one element into a sorted list. -/
def insertSorted (x : ℚ) : List ℚ → List ℚ
  | [] => [x]
  | y :: ys => if x ≤ y then x :: y :: ys else y :: insertSorted x ys

/-- Python sorted() on a list of numbers: any ascending sort of the same
multiset produces this list, since rationals carry no satellite data. -/
def pySorted (l : List ℚ) : List ℚ := l.foldr insertSorted []

/-- the median computed in _remove_outliers (indexing the sorted list). -/
def median (samples : List ℚ) : ℚ :=
  let s := pySorted samples
  let n := samples.length
  if n % 2 = 1 then s.getD (n / 2) 0
  else (s.getD (n / 2 - 1) 0 + s.getD (n / 2) 0) / 2

/-- the median absolute deviation as the code computes it:
sorted(deviations)[len(deviations) // 2], and 0 for an empty list. -/
def mad (samples : List ℚ) : ℚ :=
  let deviations := samples.map (fun x => |x - median samples|)
  if deviations.isEmpty then 0
  else (pySorted deviations).getD (deviations.length / 2) 0

/-- self.max_outliers_percent = 0.3. -/
def max_outliers_percent : ℚ := 3 / 10

/-- the body of the per-sample loop of _remove_outliers: when MAD is 0
every sample is kept, otherwise a sample is kept iff its modified z-score
0.6745 * (x - median) / MAD has absolute value at most the 3.5 threshold. -/
def outlier_step (med m : ℚ) (acc : List ℚ × Nat) (sample : ℚ) : List ℚ × Nat :=
  if m = 0 then (acc.1 ++ [sample], acc.2)
  else if |0.6745 * (sample - med) / m| ≤ 3.5 then (acc.1 ++ [sample], acc.2)
  else (acc.1, acc.2 + 1)

/-- RobustMeasurementBase._remove_outliers: fewer than 3 samples are
returned unchanged; if the rejection would remove more than
int(len * 0.3) samples the original set is kept with 0 outliers. -/
def remove_outliers (samples : List ℚ) : List ℚ × Nat :=
  if samples.length < 3 then (samples, 0)
  else
    let res := samples.foldl (outlier_step (median samples) (mad samples)) ([], 0)
    if (((samples.length : ℚ) * max_outliers_percent).floor.toNat) < res.2 then (samples, 0)
    else res

/-- MeasurementResult, restricted to the fields the claims mention.
std_dev in the source is math.sqrt of the stored variance; std_dev_sq
none encodes the float inf assigned when the sample list is empty.
confidence_interval and is_stable (which involve sqrt and are mentioned
by no claim) are not modelled. -/
structure MeasurementResult where
  raw_samples : List ℚ
  outliers_removed : Nat
  sample_count : Nat
  mean : Option ℚ
  std_dev_sq : Option ℚ
deriving DecidableEq, Repr

/-- MeasurementResult.__init__ together with _calculate_statistics:
mean = sum/n; variance with n-1 denominator for n > 1, and std_dev 0.0
(variance 0) for n = 1. -/
def mkMeasurementResult (samples : List ℚ) (outliers_removed : Nat) : MeasurementResult :=
  if samples.isEmpty then ⟨samples, outliers_removed, samples.length, none, none⟩
  else
    let n := samples.length
    let mean := samples.sum / (n : ℚ)
    let sdsq :=
      if 1 < n then ((samples.map (fun x => (x - mean) ^ 2)).sum) / ((n : ℚ) - 1)
      else 0
    ⟨samples, outliers_removed, n, some mean, some sdsq⟩

/-- RobustMeasurementBase.take_measurement: collect, require at least 2
valid raw samples, remove outliers, require at least 2 surviving samples,
build the result (the noise-reduction statistics bookkeeping does not
affect the returned value and is elided). -/
def take_measurement (sample_count : Nat) (sensor_function : Nat → SampleOutcome) :
    Option MeasurementResult :=
  let collected := collect_samples sample_count sensor_function
  if collected.1.length < 2 then none
  else
    let res := remove_outliers collected.1
    if res.1.length < 2 then none
    else some (mkMeasurementResult res.1 res.2)

/-- the accessor behavior of the spec scenario for C2: 10 raw samples,
nine of value 7.0 and the tenth 20.0. -/
def c2_behavior (i : Nat) : SampleOutcome :=
  .ok (.float (.fin (if i = 9 then 20 else 7)))

/-- C2 (counterexample): on the raw sample set with nine 7.0 and one 20.0
the MAD is 0 (the middle deviation is 0), so the code rejects nothing: the
result has sample_count 10 (not 9), outliers_removed 0, and mean 8.3. -/
theorem C2_counterexample :
    (take_measurement 10 c2_behavior).map
        (fun r => (r.sample_count, r.outliers_removed, r.mean))
      = some (10, 0, some (83 / 10)) ∧
    ¬ ((take_measurement 10 c2_behavior).map (fun r => r.sample_count) = some 9) := by
  with_unfolding_all decide

/-- C2 (amended): for the raw sample set of nine 7.0 and one 20.0 the MAD
computed by _remove_outliers is 0, so by the MAD-zero rule no sample is
rejected: the 20.0 sample is kept, sample_count is 10, outliers_removed
is 0 and the mean is 8.3. -/
theorem C2_no_rejection_mad_zero :
    mad [7, 7, 7, 7, 7, 7, 7, 7, 7, 20] = 0 ∧
    remove_outliers [7, 7, 7, 7, 7, 7, 7, 7, 7, 20]
      = ([7, 7, 7, 7, 7, 7, 7, 7, 7, 20], 0) ∧
    (take_measurement 10 c2_behavior).map
        (fun r => (r.sample_count, r.outliers_removed, r.mean))
      = some (10, 0, some (83 / 10)) := by
  with_unfolding_all decide

/-- helper for C7: with MAD 0 the rejection loop appends every sample. -/
theorem outlier_step_mad_zero (med : ℚ) (l : List ℚ) :
    ∀ acc : List ℚ × Nat, l.foldl (outlier_step med 0) acc = (acc.1 ++ l, acc.2) := by
  induction l with
  | nil =>
    intro acc
    simp
  | cons x xs ih =>
    intro acc
    simp only [List.foldl_cons]
    rw [ih]
    simp [outlier_step]

/-- C7: whenever the MAD of the sample set is 0 (for example when all
samples are identical), _remove_outliers removes nothing and returns the
input set with outliers_removed 0; and for n identical samples the
resulting variance (hence the standard deviation, its square root) is
exactly 0. -/
theorem C7_mad_zero_keeps_all (samples : List ℚ) (h : mad samples = 0)
    (n : Nat) (q : ℚ) (hn : 1 ≤ n) :
    remove_outliers samples = (samples, 0) ∧
    (mkMeasurementResult (List.replicate n q) 0).std_dev_sq = some 0 := by
  constructor
  · unfold remove_outliers
    by_cases hlen : samples.length < 3
    · simp [hlen]
    · simp only [hlen, if_false]
      rw [h, outlier_step_mad_zero]
      simp
  · have hne : ¬ (List.replicate n q).isEmpty := by
      cases n with
      | zero => exact absurd hn (by decide)
      | succ m => simp [List.replicate_succ]
    unfold mkMeasurementResult
    simp only [hne, if_false, List.length_replicate]
    have hmean : (List.replicate n q).sum / ((n : ℚ)) = q := by
      rw [List.sum_replicate, nsmul_eq_mul]
      have hnz : (n : ℚ) ≠ 0 := Nat.cast_ne_zero.mpr (by omega)
      field_simp
    by_cases h1 : 1 < n
    · simp only [h1, if_true]
      rw [hmean, List.map_replicate]
      simp
    · simp [h1]

/-- C7 witness: the theorem instantiated at three identical samples. -/
theorem C7_witness :
    mad [5, 5, 5] = 0 ∧ 1 ≤ 3 ∧
    (remove_outliers [5, 5, 5] = ([5, 5, 5], 0) ∧
     (mkMeasurementResult (List.replicate 3 (5 : ℚ)) 0).std_dev_sq = some 0) :=
  ⟨by with_unfolding_all decide, by decide,
    C7_mad_zero_keeps_all [5, 5, 5] (by with_unfolding_all decide) 3 5 (by decide)⟩

/-- helper for C8: the collection step on a raised exception appends the
message and counts the invocation. -/
theorem collect_step_exn (a : List ℚ × List String × Nat) (msg : String) :
    collect_step a (.exn msg) = (a.1, a.2.1 ++ [msg], a.2.2 + 1) := rfl

/-- helper for C8: when every accessor invocation raises, the collection
loop keeps no sample and performs exactly one invocation per iteration. -/
theorem collect_exn_aux (behavior : Nat → SampleOutcome)
    (h : ∀ i, ∃ msg, behavior i = .exn msg) :
    ∀ (n : Nat) (acc : List ℚ × List String × Nat),
      ((List.range n).foldl (fun a i => collect_step a (behavior i)) acc).1 = acc.1 ∧
      ((List.range n).foldl (fun a i => collect_step a (behavior i)) acc).2.2
        = acc.2.2 + n := by
  intro n
  induction n with
  | zero =>
    intro acc
    simp
  | succ m ih =>
    intro acc
    obtain ⟨msg, hmsg⟩ := h m
    rw [List.range_succ]
    simp only [List.foldl_append, List.foldl_cons, List.foldl_nil, hmsg, collect_step_exn]
    refine ⟨(ih acc).1, ?_⟩
    have h2 := (ih acc).2
    omega

/-- C8: for an accessor that raises on every invocation, take_measurement
invokes the accessor exactly sample_count times, collects no valid sample,
and returns None (the insufficient-data result, since fewer than 2 valid
raw samples were collected); the model is a total function, so it neither
raises nor hangs. -/
theorem C8_always_failing_accessor (n : Nat) (behavior : Nat → SampleOutcome)
    (h : ∀ i, ∃ msg, behavior i = .exn msg) :
    (collect_samples n behavior).1 = [] ∧
    (collect_samples n behavior).2.2 = n ∧
    take_measurement n behavior = none := by
  have aux := collect_exn_aux behavior h n ([], [], 0)
  refine ⟨aux.1, by simpa using aux.2, ?_⟩
  unfold take_measurement
  simp only [collect_samples] at aux ⊢
  rw [aux.1]
  simp

/-- C8 witness: the theorem instantiated at 5 samples and an accessor
that always raises the same exception. -/
theorem C8_witness :
    (∀ i : Nat, ∃ msg, (fun _ : Nat => SampleOutcome.exn "boom") i = .exn msg) ∧
    ((collect_samples 5 (fun _ => .exn "boom")).1 = [] ∧
     (collect_samples 5 (fun _ => .exn "boom")).2.2 = 5 ∧
     take_measurement 5 (fun _ => .exn "boom") = none) :=
  ⟨fun _ => ⟨"boom", rfl⟩,
    C8_always_failing_accessor 5 (fun _ => .exn "boom") (fun _ => ⟨"boom", rfl⟩)⟩

end RobustMeasurement

/-! ## lib/networking/robust_mqtt.py -/

namespace RobustMqtt

/-- a queued message dict: feed, value, timestamp (the code never
inspects the value, abstracted here to a rational). -/
structure QMsg where
  feed : String
  value : ℚ
  timestamp : ℚ
deriving DecidableEq, Repr

/-- the while loop of MQTTManager._queue_message: pop the oldest entry
while the queue is at or over capacity.  Returns the remaining queue and
the number of dropped messages.  (The source capacity is the positive
constant 10; for maxSize = 0 on an empty list the source would raise on
pop(0), while this model returns the empty queue.) -/
def evict_oldest (maxSize : Nat) : List QMsg → List QMsg × Nat
  | [] => ([], 0)
  | x :: xs =>
    if maxSize ≤ (x :: xs).length then
      let res := evict_oldest maxSize xs
      (res.1, res.2 + 1)
    else (x :: xs, 0)

/-- MQTTManager._queue_message, queue component: evict oldest entries
until below capacity, then append the new message at the tail. -/
def queue_message (maxSize : Nat) (queue : List QMsg) (message : QMsg) :
    List QMsg × Nat :=
  let res := evict_oldest maxSize queue
  (res.1 ++ [message], res.2)

/-- self.max_queue_size = 10. -/
def max_queue_size : Nat := 10

/-- enqueueing a list of messages in sequence through _queue_message,
starting from the empty queue. -/
def enqueue_all (maxSize : Nat) (msgs : List QMsg) : List QMsg :=
  msgs.foldl (fun q m => (queue_message maxSize q m).1) []

/-- helper for C5: the eviction loop drops exactly the oldest entries
needed to get strictly below capacity. -/
theorem evict_oldest_eq (K : Nat) (hK : 1 ≤ K) (q : List QMsg) :
    evict_oldest K q = (q.drop (q.length + 1 - K), q.length + 1 - K) := by
  induction q with
  | nil =>
    simp [evict_oldest, Nat.sub_eq_zero_of_le hK]
  | cons x xs ih =>
    rw [evict_oldest]
    by_cases h : K ≤ (x :: xs).length
    · simp only [if_pos h, ih]
      have hlen : (x :: xs).length + 1 - K = (xs.length + 1 - K) + 1 := by
        simp only [List.length_cons]
        simp only [List.length_cons] at h
        omega
      rw [hlen, List.drop_succ_cons]
    · simp only [if_neg h]
      have hz : (x :: xs).length + 1 - K = 0 := by
        simp only [List.length_cons]
        simp only [List.length_cons] at h
        omega
      rw [hz]
      simp

/-- helper for C5: enqueueing a sequence of messages into a queue that is
within capacity retains exactly the most recent K entries in order. -/
theorem enqueue_foldl (K : Nat) (hK : 1 ≤ K) :
    ∀ (msgs : List QMsg) (q : List QMsg), q.length ≤ K →
      msgs.foldl (fun q m => (queue_message K q m).1) q
        = (q ++ msgs).drop ((q ++ msgs).length - K) := by
  intro msgs
  induction msgs with
  | nil =>
    intro q hq
    simp only [List.foldl_nil, List.append_nil]
    rw [Nat.sub_eq_zero_of_le hq, List.drop_zero]
  | cons m ms ih =>
    intro q hq
    simp only [List.foldl_cons]
    have hstep : (queue_message K q m).1 = q.drop (q.length + 1 - K) ++ [m] := by
      simp [queue_message, evict_oldest_eq K hK]
    rw [hstep]
    have hd : q.length + 1 - K ≤ q.length := by omega
    have hlen1 : (q.drop (q.length + 1 - K) ++ [m]).length ≤ K := by
      simp only [List.length_append, List.length_drop, List.length_cons,
        List.length_nil]
      omega
    rw [ih _ hlen1]
    have hsplit : q.drop (q.length + 1 - K) ++ [m] ++ ms
        = (q ++ m :: ms).drop (q.length + 1 - K) := by
      rw [List.drop_append_of_le_length hd]
      simp
    rw [hsplit, List.drop_drop]
    congr 1
    simp only [List.length_drop, List.length_append, List.length_cons]
    omega

/-- C5: enqueueing K+M messages (M at least 1) in sequence into the
bounded queue of capacity K at least 1 leaves exactly the last K messages
in original relative order (the first M evicted), and a single enqueue
into a queue within capacity keeps the queue within capacity. -/
theorem C5_bounded_queue (K M : Nat) (hK : 1 ≤ K) (hM : 1 ≤ M)
    (msgs : List QMsg) (hlen : msgs.length = K + M)
    (q : List QMsg) (m : QMsg) :
    enqueue_all K msgs = msgs.drop M ∧
    (queue_message K q m).1.length ≤ K := by
  constructor
  · unfold enqueue_all
    rw [enqueue_foldl K hK msgs [] (by simp)]
    simp only [List.nil_append, hlen]
    congr 1
    omega
  · simp only [queue_message, evict_oldest_eq K hK]
    simp only [List.length_append, List.length_drop, List.length_cons,
      List.length_nil]
    omega

/-- C5 witness messages: the spec scenario keys A, B, C, D. -/
def c5_msgs : List QMsg :=
  [⟨"A", 0, 0⟩, ⟨"B", 0, 0⟩, ⟨"C", 0, 0⟩, ⟨"D", 0, 0⟩]

/-- C5 witness: capacity 3, four enqueues, queue becomes the last three
keys B, C, D in order. -/
theorem C5_witness :
    1 ≤ 3 ∧ 1 ≤ 1 ∧ c5_msgs.length = 3 + 1 ∧
    (enqueue_all 3 c5_msgs = c5_msgs.drop 1 ∧
     (queue_message 3 [] ⟨"A", 0, 0⟩).1.length ≤ 3) :=
  ⟨by decide, by decide, by decide,
    C5_bounded_queue 3 1 (by decide) (by decide) c5_msgs (by decide)
      [] ⟨"A", 0, 0⟩⟩

/-- MQTTManager._process_queue: walk the queue in FIFO order; an entry
older than 300 seconds is discarded without sending; a fresh entry is
sent, and on send success removed; on the first send exception the walk
stops, leaving that entry and everything after it queued.  Returns the
remaining queue and the list of sent messages in send order.  (The source
records removal indices and pops them in reverse at the end; since every
examined entry before the break point is removed, that is the same
function.)  Whether a send raises is modelled by the sendOk predicate:
each message is attempted at most once in one pass. -/
def process_queue (now : ℚ) (sendOk : QMsg → Bool) : List QMsg → List QMsg × List QMsg
  | [] => ([], [])
  | m :: rest =>
    if 300 < now - m.timestamp then process_queue now sendOk rest
    else if sendOk m then
      let res := process_queue now sendOk rest
      (res.1, m :: res.2)
    else (m :: rest, [])

/-- helper for C6: full characterization of one drain pass.  An entry is
consumed (removed from the queue) while it is stale or its send succeeds;
the walk stops at the first fresh entry whose send fails; the sent list
is the fresh prefix entries in order. -/
theorem process_queue_eq (now : ℚ) (sendOk : QMsg → Bool) (q : List QMsg) :
    process_queue now sendOk q
      = (q.dropWhile (fun m => decide (300 < now - m.timestamp) || sendOk m),
         (q.takeWhile (fun m => decide (300 < now - m.timestamp) || sendOk m)).filter
           (fun m => decide (now - m.timestamp ≤ 300))) := by
  induction q with
  | nil => simp [process_queue]
  | cons m rest ih =>
    rw [process_queue]
    by_cases hst : 300 < now - m.timestamp
    · rw [if_pos hst, ih]
      simp [List.dropWhile_cons, List.takeWhile_cons, List.filter_cons, hst]
      rw [if_neg (not_le.mpr (by linarith : (300 : ℚ) + m.timestamp < now))]
    · by_cases hsend : sendOk m = true
      · rw [if_neg hst, if_pos hsend, ih]
        simp [List.dropWhile_cons, List.takeWhile_cons, List.filter_cons, hst, hsend]
        rw [if_pos (by
          have h := not_lt.mp hst
          linarith : now ≤ (300 : ℚ) + m.timestamp)]
      · rw [if_neg hst, if_neg hsend]
        simp only [Bool.not_eq_true] at hsend
        simp [List.dropWhile_cons, List.takeWhile_cons, hst, hsend]

/-- C6: one drain pass walks the queue in FIFO order; it equals the
stale-filtering walk that stops at the first fresh entry whose send
fails (full characterization); if every entry before some fresh failing
entry is stale or sends fine, the pass leaves that entry and all later
entries queued and has sent exactly the fresh earlier entries in original
order; and when every entry is fresh and every send succeeds, the queue
empties and all entries are sent in original order. -/
theorem C6_drain (now : ℚ) (sendOk : QMsg → Bool) (q pre rest : List QMsg) (m : QMsg)
    (hsplit : q = pre ++ m :: rest)
    (hpre : ∀ x ∈ pre, (decide (300 < now - x.timestamp) || sendOk x) = true)
    (hm_fresh : now - m.timestamp ≤ 300) (hm_fail : sendOk m = false) :
    process_queue now sendOk q
      = (q.dropWhile (fun x => decide (300 < now - x.timestamp) || sendOk x),
         (q.takeWhile (fun x => decide (300 < now - x.timestamp) || sendOk x)).filter
           (fun x => decide (now - x.timestamp ≤ 300))) ∧
    process_queue now sendOk q
      = (m :: rest, pre.filter (fun x => decide (now - x.timestamp ≤ 300))) ∧
    (∀ q2 : List QMsg,
      (∀ x ∈ q2, now - x.timestamp ≤ 300 ∧ sendOk x = true) →
      process_queue now sendOk q2 = ([], q2)) := by
  refine ⟨process_queue_eq now sendOk q, ?_, ?_⟩
  · subst hsplit
    induction pre with
    | nil =>
      simp only [List.nil_append]
      rw [process_queue, if_neg (not_lt.mpr hm_fresh), if_neg (by simp [hm_fail])]
      simp
    | cons x xs ih =>
      have hx := hpre x (by simp)
      have ihx := ih (fun y hy => hpre y (by simp [hy]))
      rw [List.cons_append, process_queue]
      by_cases hst : 300 < now - x.timestamp
      · rw [if_pos hst, ihx, List.filter_cons,
          if_neg (by
            simp only [decide_eq_true_eq]
            exact not_le.mpr hst)]
      · have hsend : sendOk x = true := by
          simpa [hst] using hx
        rw [if_neg hst, if_pos hsend, ihx, List.filter_cons,
          if_pos (by
            simp only [decide_eq_true_eq]
            exact not_lt.mp hst)]
  · intro q2 hall
    rw [process_queue_eq now sendOk q2]
    have hdw : q2.dropWhile (fun x => decide (300 < now - x.timestamp) || sendOk x)
        = [] := by
      rw [List.dropWhile_eq_nil_iff]
      intro x hx
      simp [(hall x hx).2]
    have htw : q2.takeWhile (fun x => decide (300 < now - x.timestamp) || sendOk x)
        = q2 := by
      rw [List.takeWhile_eq_self_iff]
      intro x hx
      simp [(hall x hx).2]
    rw [hdw, htw, List.filter_eq_self.mpr (fun x hx => by simp [(hall x hx).1])]

/-- C6 witness queue: three fresh entries before a fresh failing one. -/
def c6_queue : List QMsg := [⟨"B", 0, 10⟩, ⟨"C", 0, 20⟩, ⟨"D", 0, 30⟩]

/-- C6 witness: at time 100 with only the D send failing, the pass sends
B and C in order and leaves D queued; and a fully successful pass over
the same fresh queue sends everything in order and empties it. -/
theorem C6_witness :
    (c6_queue = [⟨"B", 0, 10⟩, ⟨"C", 0, 20⟩] ++ ⟨"D", 0, 30⟩ :: [] ∧
     (∀ x ∈ [(⟨"B", 0, 10⟩ : QMsg), ⟨"C", 0, 20⟩],
        (decide (300 < (100 : ℚ) - x.timestamp) || decide (x.feed ≠ "D")) = true) ∧
     (100 : ℚ) - (30 : ℚ) ≤ 300 ∧ decide ((⟨"D", 0, 30⟩ : QMsg).feed ≠ "D") = false) ∧
    (process_queue 100 (fun x => decide (x.feed ≠ "D")) c6_queue
        = (c6_queue.dropWhile
            (fun x => decide (300 < (100 : ℚ) - x.timestamp) || decide (x.feed ≠ "D")),
           (c6_queue.takeWhile
            (fun x => decide (300 < (100 : ℚ) - x.timestamp) || decide (x.feed ≠ "D"))).filter
            (fun x => decide ((100 : ℚ) - x.timestamp ≤ 300))) ∧
     process_queue 100 (fun x => decide (x.feed ≠ "D")) c6_queue
        = (⟨"D", 0, 30⟩ :: [],
           [(⟨"B", 0, 10⟩ : QMsg), ⟨"C", 0, 20⟩].filter
             (fun x => decide ((100 : ℚ) - x.timestamp ≤ 300))) ∧
     (∀ q2 : List QMsg,
       (∀ x ∈ q2, (100 : ℚ) - x.timestamp ≤ 300 ∧ decide (x.feed ≠ "D") = true) →
       process_queue 100 (fun x => decide (x.feed ≠ "D")) q2 = ([], q2))) :=
  ⟨⟨by with_unfolding_all decide, by with_unfolding_all decide,
     by with_unfolding_all decide, by with_unfolding_all decide⟩,
    C6_drain 100 (fun x => decide (x.feed ≠ "D")) c6_queue
      [⟨"B", 0, 10⟩, ⟨"C", 0, 20⟩] [] ⟨"D", 0, 30⟩
      (by with_unfolding_all decide) (by with_unfolding_all decide)
      (by with_unfolding_all decide) (by with_unfolding_all decide)⟩

/-- the slice of MQTTManager state that the send path reads and writes.
client none models self.client = None; client (some b) models a client
object whose is_connected() reports b (a call that raises is caught by
MQTTManager.is_connected and modelled as some false).  Collaborator
effects (state-manager health reports, wifi-manager error reports) are
modelled by the LeanState and LeanWifi embeddings. -/
structure MqttState where
  client : Option Bool
  last_send_attempt : ℚ
  message_queue : List QMsg
  messages_sent : Nat
  messages_queued : Nat
  messages_dropped : Nat
  error_32_count : Nat
deriving DecidableEq, Repr

/-- self.send_interval = 0.5. -/
def send_interval : ℚ := 1 / 2

/-- MQTTManager.is_connected: False without a client, else what the
client reports. -/
def is_connected (st : MqttState) : Bool :=
  match st.client with
  | none => false
  | some b => b

/-- the Python test `"32" in error_str`, via splitOn. -/
def containsError32 (e : String) : Bool := 2 ≤ (e.splitOn "32").length

/-- MQTTManager._queue_message on the manager state: evict the oldest
entries at capacity, append at the tail, bump the counters. -/
def queue_message_st (st : MqttState) (message : QMsg) : MqttState :=
  let res := evict_oldest max_queue_size st.message_queue
  { st with
    message_queue := res.1 ++ [message]
    messages_dropped := st.messages_dropped + res.2
    messages_queued := st.messages_queued + 1 }

/-- MQTTManager._send_message: rate limit, connection check, then one
delivery attempt whose outcome (success or raised exception message) is
the outcome argument; any exception marks the client disconnected
(self.client = None) after the Error 32 counting. -/
def send_message (st : MqttState) (now : ℚ) (outcome : Except String Unit) :
    MqttState × Bool :=
  if now - st.last_send_attempt < send_interval then (st, false)
  else
    let st1 := { st with last_send_attempt := now }
    if is_connected st1 = false then (st1, false)
    else
      match outcome with
      | .ok _ => ({ st1 with messages_sent := st1.messages_sent + 1 }, true)
      | .error e =>
        let st2 :=
          if containsError32 e then { st1 with error_32_count := st1.error_32_count + 1 }
          else st1
        ({ st2 with client := none }, false)

/-- MQTTManager.send_reading: build the message with the current time as
timestamp, attempt the send, and queue the message on failure. -/
def send_reading (st : MqttState) (feed : String) (value : ℚ) (now : ℚ)
    (outcome : Except String Unit) : MqttState × Bool :=
  let message : QMsg := ⟨feed, value, now⟩
  let res := send_message st now outcome
  if res.2 then (res.1, true)
  else (queue_message_st res.1 message, false)

/-- C10: if the delivery attempt inside send_reading raises any
exception (while connected and past the rate limit, so the attempt
actually happens), the manager drops its client handle, is_connected()
is false immediately afterwards, and the failed message sits at the tail
of the bounded queue, which stays within its capacity of 10. -/
theorem C10_send_error_disconnects (st : MqttState) (feed : String) (value now : ℚ)
    (e : String) (hrate : send_interval ≤ now - st.last_send_attempt)
    (hconn : is_connected st = true) :
    (send_reading st feed value now (.error e)).2 = false ∧
    (send_reading st feed value now (.error e)).1.client = none ∧
    is_connected (send_reading st feed value now (.error e)).1 = false ∧
    (send_reading st feed value now (.error e)).1.message_queue
      = (evict_oldest max_queue_size st.message_queue).1 ++ [⟨feed, value, now⟩] ∧
    (send_reading st feed value now (.error e)).1.message_queue.getLast?
      = some ⟨feed, value, now⟩ ∧
    (send_reading st feed value now (.error e)).1.message_queue.length
      ≤ max_queue_size := by
  have hnotlt : ¬ (now - st.last_send_attempt < send_interval) := not_lt.mpr hrate
  have hconn1 : is_connected { st with last_send_attempt := now } = true := by
    simpa [is_connected] using hconn
  have hsend : send_message st now (.error e)
      = (({ (if containsError32 e then
              { { st with last_send_attempt := now } with
                  error_32_count := st.error_32_count + 1 }
            else { st with last_send_attempt := now }) with client := none }), false) := by
    rw [send_message, if_neg hnotlt, if_neg (by simp [hconn1])]
  have hq : (send_reading st feed value now (.error e)).1.message_queue
      = (evict_oldest max_queue_size st.message_queue).1 ++ [⟨feed, value, now⟩] := by
    rw [send_reading, hsend]
    by_cases h32 : containsError32 e <;> simp [h32, queue_message_st]
  refine ⟨?_, ?_, ?_, hq, ?_, ?_⟩
  · rw [send_reading, hsend]
    simp [queue_message_st]
  · rw [send_reading, hsend]
    by_cases h32 : containsError32 e <;> simp [h32, queue_message_st]
  · rw [send_reading, hsend]
    by_cases h32 : containsError32 e <;> simp [h32, queue_message_st, is_connected]
  · rw [hq]
    exact List.getLast?_concat _
  · rw [hq]
    have hev := evict_oldest_eq max_queue_size (by decide) st.message_queue
    rw [hev]
    simp only [List.length_append, List.length_drop, List.length_cons, List.length_nil,
      max_queue_size]
    omega

/-- C10 witness state: connected client, empty queue, rate limit long
since elapsed. -/
def c10_st : MqttState := ⟨some true, 0, [], 0, 0, 0, 0⟩

/-- C10 witness: the theorem instantiated at a concrete connected state
and a send that raises an Error 32 style exception. -/
theorem C10_witness :
    send_interval ≤ (10 : ℚ) - c10_st.last_send_attempt ∧
    is_connected c10_st = true ∧
    ((send_reading c10_st "pH" 7 10 (.error "Sock error 32")).2 = false ∧
     (send_reading c10_st "pH" 7 10 (.error "Sock error 32")).1.client = none ∧
     is_connected (send_reading c10_st "pH" 7 10 (.error "Sock error 32")).1 = false ∧
     (send_reading c10_st "pH" 7 10 (.error "Sock error 32")).1.message_queue
       = (evict_oldest max_queue_size c10_st.message_queue).1 ++ [⟨"pH", 7, 10⟩] ∧
     (send_reading c10_st "pH" 7 10 (.error "Sock error 32")).1.message_queue.getLast?
       = some ⟨"pH", 7, 10⟩ ∧
     (send_reading c10_st "pH" 7 10 (.error "Sock error 32")).1.message_queue.length
       ≤ max_queue_size) :=
  ⟨by with_unfolding_all decide, by decide,
    C10_send_error_disconnects c10_st "pH" 7 10 "Sock error 32"
      (by with_unfolding_all decide) (by decide)⟩

end RobustMqtt

/-! ## lib/networking/lean_wifi.py -/

namespace LeanWifi

/-- the slice of WiFiManager state that the auto-recovery logic reads
and writes. -/
structure WifiRecoveryState where
  mqtt_error_count : Nat
  last_network_reset : ℚ
deriving DecidableEq, Repr

/-- self.recovery_rssi_threshold = -75 dBm. -/
def recovery_rssi_threshold : Int := -75

/-- self.recovery_mqtt_threshold = 3. -/
def recovery_mqtt_threshold : Nat := 3

/-- self.recovery_cooldown = 300 seconds. -/
def recovery_cooldown : ℚ := 300

/-- WiFiManager._check_recovery_trigger: inside the cooldown nothing
happens; otherwise the reset time is recorded and force_reconnect runs
(its success, an external outcome, is the reconnectOk argument; on
success the error counter resets).  The returned flag says whether a
forced reconnect cycle was performed. -/
def check_recovery_trigger (st : WifiRecoveryState) (now : ℚ) (reconnectOk : Bool) :
    WifiRecoveryState × Bool :=
  if now - st.last_network_reset < recovery_cooldown then (st, false)
  else
    let st1 := { st with last_network_reset := now }
    if reconnectOk then ({ st1 with mqtt_error_count := 0 }, true)
    else (st1, true)

/-- WiFiManager.report_mqtt_error: bump the rolling error count; when the
current RSSI is truthy (not None and nonzero), at or below the concerning
threshold, and the count has reached its threshold, consult the recovery
trigger.  rssi none models wifi.radio.ap_info being None. -/
def report_mqtt_error (st : WifiRecoveryState) (rssi : Option Int) (now : ℚ)
    (reconnectOk : Bool) : WifiRecoveryState × Bool :=
  let st1 := { st with mqtt_error_count := st.mqtt_error_count + 1 }
  match rssi with
  | none => (st1, false)
  | some r =>
    if r ≠ 0 ∧ r ≤ recovery_rssi_threshold
        ∧ recovery_mqtt_threshold ≤ st1.mqtt_error_count then
      check_recovery_trigger st1 now reconnectOk
    else (st1, false)

/-- C9: a delivery-error report performs a forced reconnect cycle
exactly when the rolling error count (after this report) has reached the
threshold 3, the current RSSI signal exists and is at or below -75 dBm,
and at least 300 seconds have passed since the last forced reset (the
truthiness guard on rssi is subsumed: an rssi at or below -75 is
nonzero). -/
theorem C9_forced_reconnect_iff (st : WifiRecoveryState) (rssi : Option Int)
    (now : ℚ) (reconnectOk : Bool) :
    (report_mqtt_error st rssi now reconnectOk).2 = true ↔
      ((∃ r, rssi = some r ∧ r ≤ recovery_rssi_threshold) ∧
       recovery_mqtt_threshold ≤ st.mqtt_error_count + 1 ∧
       recovery_cooldown ≤ now - st.last_network_reset) := by
  cases rssi with
  | none => simp [report_mqtt_error]
  | some r =>
    simp only [report_mqtt_error, Option.some.injEq]
    by_cases hcond : r ≠ 0 ∧ r ≤ recovery_rssi_threshold
        ∧ recovery_mqtt_threshold ≤ st.mqtt_error_count + 1
    · rw [if_pos hcond]
      unfold check_recovery_trigger
      by_cases hcool : now - st.last_network_reset < recovery_cooldown
      · rw [if_pos hcool]
        simp only [show ((st, false) :
            WifiRecoveryState × Bool).2 = false from rfl]
        constructor
        · intro hfalse
          exact absurd hfalse (by simp)
        · rintro ⟨-, -, hge⟩
          exact absurd hcool (not_lt.mpr hge)
      · rw [if_neg hcool]
        cases reconnectOk <;> simp_all
    · rw [if_neg hcond]
      simp only [show ∀ s : WifiRecoveryState, ((s, false) :
          WifiRecoveryState × Bool).2 = false from fun _ => rfl]
      constructor
      · intro hfalse
        exact absurd hfalse (by simp)
      · rintro ⟨⟨r2, hr2, hle⟩, hcnt, -⟩
        cases hr2
        refine absurd ⟨?_, hle, hcnt⟩ hcond
        intro h0
        rw [h0] at hle
        exact absurd hle (by decide)

end LeanWifi

/-! ## lib/utilities/i2c_safe.py -/

namespace I2CSafe

/-- the time.sleep(0.1) between retry sub-attempts. -/
def sleep_delay : ℚ := 1 / 10

/-- the retry loop of I2CSafeWrapper._execute_with_timeout.  The
accessor behavior gives, for each attempt index, the returned value or
none when the call raises; dur gives the wall-clock duration of each
call.  Arguments: remaining iteration budget (max_attempts in the
source), index of the next attempt, elapsed time since entry.  Returns
the result (none encodes the timeout return of None), the number of
accessor invocations performed, and the elapsed time at return.  The
fuel is structurally decreasing, so the loop always terminates. -/
def exec_loop {α : Type} (behavior : Nat → Option α) (dur : Nat → ℚ) (timeout : ℚ) :
    Nat → Nat → ℚ → Option α × Nat × ℚ
  | 0, _, elapsed => (none, 0, elapsed)
  | fuel + 1, i, elapsed =>
    let elapsed1 := elapsed + dur i
    match behavior i with
    | some v => (some v, 1, elapsed1)
    | none =>
      if timeout ≤ elapsed1 then (none, 1, elapsed1)
      else
        let res := exec_loop behavior dur timeout fuel (i + 1) (elapsed1 + sleep_delay)
        (res.1, res.2.1 + 1, res.2.2)

/-- max_attempts = max(1, int(timeout * 10)); Python int() truncation
equals floor for the nonnegative timeouts the wrapper is called with. -/
def max_attempts (timeout : ℚ) : Nat := max 1 (timeout * 10).floor.toNat

/-- I2CSafeWrapper._execute_with_timeout: run the retry loop from
attempt 0 with elapsed time 0 and the computed attempt budget. -/
def execute_with_timeout {α : Type} (behavior : Nat → Option α) (dur : Nat → ℚ)
    (timeout : ℚ) : Option α × Nat × ℚ :=
  exec_loop behavior dur timeout (max_attempts timeout) 0 0

/-- helper for C4: the loop performs at most fuel accessor invocations. -/
theorem exec_loop_calls {α : Type} (behavior : Nat → Option α) (dur : Nat → ℚ)
    (timeout : ℚ) :
    ∀ (fuel i : Nat) (e : ℚ),
      (exec_loop behavior dur timeout fuel i e).2.1 ≤ fuel := by
  intro fuel
  induction fuel with
  | zero =>
    intro i e
    simp [exec_loop]
  | succ f ih =>
    intro i e
    rw [exec_loop]
    cases hb : behavior i with
    | some v => simp [hb]
    | none =>
      simp only [hb]
      by_cases hto : timeout ≤ e + dur i
      · simp [hto]
      · simp only [if_neg hto]
        have h := ih (i + 1) (e + dur i + sleep_delay)
        show (exec_loop behavior dur timeout f (i + 1) (e + dur i + sleep_delay)).2.1 + 1
          ≤ f + 1
        omega

/-- helper for C4: as long as the loop is entered with elapsed time
strictly below timeout + sleep, it returns with elapsed time at most
timeout + sleep + one accessor-call duration bound. -/
theorem exec_loop_elapsed {α : Type} (behavior : Nat → Option α) (dur : Nat → ℚ)
    (timeout D : ℚ) (hdur : ∀ j, 0 ≤ dur j ∧ dur j ≤ D) :
    ∀ (fuel i : Nat) (e : ℚ), e < timeout + sleep_delay →
      (exec_loop behavior dur timeout fuel i e).2.2 ≤ timeout + sleep_delay + D := by
  have hD : 0 ≤ D := le_trans (hdur 0).1 (hdur 0).2
  intro fuel
  induction fuel with
  | zero =>
    intro i e he
    simp only [exec_loop]
    linarith
  | succ f ih =>
    intro i e he
    rw [exec_loop]
    cases hb : behavior i with
    | some v =>
      simp only [hb]
      have := (hdur i).2
      linarith
    | none =>
      simp only [hb]
      by_cases hto : timeout ≤ e + dur i
      · simp only [if_pos hto]
        have := (hdur i).2
        linarith
      · simp only [if_neg hto]
        refine ih (i + 1) (e + dur i + sleep_delay) ?_
        have hlt := not_le.mp hto
        linarith

/-- C4: for every accessor behavior (each attempt may return a value or
raise) and every attempt-duration assignment bounded by D, the timed
call of the bus-safety wrapper is a total function returning a value or
the None timeout result; its retry loop performs at most
max(1, int(timeout * 10)) ≤ max(1, timeout * 10) accessor invocations;
and the elapsed time at return is at most timeout plus one sub-attempt
(one 0.1 s retry sleep plus one accessor call). -/
theorem C4_timed_call_bounded {α : Type} (behavior : Nat → Option α) (dur : Nat → ℚ)
    (timeout D : ℚ) (htimeout : 0 ≤ timeout) (hdur : ∀ j, 0 ≤ dur j ∧ dur j ≤ D) :
    (execute_with_timeout behavior dur timeout).2.1 ≤ max_attempts timeout ∧
    ((execute_with_timeout behavior dur timeout).2.1 : ℚ) ≤ max 1 (timeout * 10) ∧
    (execute_with_timeout behavior dur timeout).2.2 ≤ timeout + sleep_delay + D := by
  have hsleep : (0 : ℚ) < sleep_delay := by norm_num [sleep_delay]
  have hcalls : (execute_with_timeout behavior dur timeout).2.1 ≤ max_attempts timeout :=
    exec_loop_calls behavior dur timeout (max_attempts timeout) 0 0
  refine ⟨hcalls, ?_, ?_⟩
  · have h0 : (0 : ℚ) ≤ timeout * 10 := by linarith
    have heq : (timeout * 10).floor = ⌊timeout * 10⌋ := rfl
    have hnn : 0 ≤ (timeout * 10).floor := by
      rw [heq]
      exact Int.floor_nonneg.mpr h0
    have hfl : (((timeout * 10).floor.toNat : ℕ) : ℚ) ≤ timeout * 10 := by
      have h2 : (((timeout * 10).floor.toNat : ℕ) : ℚ)
          = (((timeout * 10).floor : ℤ) : ℚ) := by
        rw [← Int.cast_natCast, Int.toNat_of_nonneg hnn]
      rw [h2, heq]
      exact_mod_cast Int.floor_le (timeout * 10)
    calc ((execute_with_timeout behavior dur timeout).2.1 : ℚ)
        ≤ (max_attempts timeout : ℚ) := by exact_mod_cast hcalls
      _ ≤ max 1 (timeout * 10) := by
          rw [max_attempts, Nat.cast_max]
          exact max_le_max (by norm_num) hfl
  · exact exec_loop_elapsed behavior dur timeout D hdur (max_attempts timeout) 0 0
      (by linarith)

/-- C4 witness: the theorem instantiated at an accessor that raises on
every attempt, attempt duration 1/20 s, timeout 1 s. -/
theorem C4_witness :
    (0 : ℚ) ≤ 1 ∧
    (∀ _j : Nat, (0 : ℚ) ≤ 1 / 20 ∧ (1 : ℚ) / 20 ≤ 1 / 20) ∧
    ((execute_with_timeout (fun _ => (none : Option ℚ)) (fun _ => 1 / 20) 1).2.1
        ≤ max_attempts 1 ∧
     ((execute_with_timeout (fun _ => (none : Option ℚ)) (fun _ => 1 / 20) 1).2.1 : ℚ)
        ≤ max 1 (1 * 10) ∧
     (execute_with_timeout (fun _ => (none : Option ℚ)) (fun _ => 1 / 20) 1).2.2
        ≤ 1 + sleep_delay + 1 / 20) :=
  ⟨by decide,
    fun _ => ⟨(by with_unfolding_all decide : (0 : ℚ) ≤ 1 / 20), le_refl _⟩,
    C4_timed_call_bounded (fun _ => (none : Option ℚ)) (fun _ => 1 / 20) 1 (1 / 20)
      (by decide)
      (fun _ => ⟨(by with_unfolding_all decide : (0 : ℚ) ≤ 1 / 20), le_refl _⟩)⟩

end I2CSafe

end PHMonitor
